import Mathlib

/-!
Verification of the model-discovery and streaming-extraction core of the
Genkit-Ollama vision sample.

The development shallowly embeds the TypeScript core:
* `src/lib/ollama.ts` — vision-model classification (`isVisionModel`) and the
  server status check (`checkOllamaStatus`);
* `src/lib/genkit/config.ts` — the model display catalog
  (`getModelDisplayInfo`);
* `src/lib/genkit/flows.ts` — the extraction pipeline
  (`extractTextFromImage`), output formatting, and the model listing
  (`getAvailableModels`).

Platform effects (the HTTP fetch, the `ai.generate` network call, the clock,
base64 decoding) are modelled by explicit outcome/environment parameters:
each pure Lean function takes the outcome the platform would deliver and
produces the value the TypeScript code computes from it.  JavaScript strings
are modelled as Lean `String`s; the handful of JS string primitives the code
uses (`toLowerCase`, `split`, `trim`, `startsWith`, regex tests against the
fixed pattern list) are re-implemented below over `List Char` so that every
definition is executable and kernel-reducible.
-/

/-! ### JS string primitives -/

/-- JS `s.toLowerCase()` (ASCII-faithful; every string the code matches
against is ASCII). -/
def toLowerStr (s : String) : String := String.mk (s.data.map Char.toLower)

/-- JS `s.toUpperCase()` (ASCII-faithful). -/
def toUpperStr (s : String) : String := String.mk (s.data.map Char.toUpper)

/-- Whether `pat` occurs as a contiguous substring of the character list. -/
def hasInfix (pat : List Char) : List Char → Bool
  | [] => pat.isEmpty
  | c :: cs => pat.isPrefixOf (c :: cs) || hasInfix pat cs

/-- JS `s.includes(pat)` / an unanchored regex literal test. -/
def strHasInfix (s pat : String) : Bool := hasInfix pat.data s.data

/-- JS `s.startsWith(pre)` / an anchored regex literal test. -/
def strStartsWith (s pre : String) : Bool := pre.data.isPrefixOf s.data

/-- Splitting a character list at every separator character (JS
`String.prototype.split` semantics: `n` separators yield `n + 1` groups,
empty groups included). -/
def splitBy (p : Char → Bool) : List Char → List (List Char)
  | [] => [[]]
  | c :: cs =>
    if p c then [] :: splitBy p cs
    else
      match splitBy p cs with
      | [] => [[c]]
      | g :: gs => (c :: g) :: gs

/-- JS `s.split(sep)` for a single-character separator. -/
def splitOnChar (sep : Char) (s : String) : List String :=
  (splitBy (fun c => c == sep) s.data).map String.mk

/-- Character class of the JS `\s` regex class / `String.prototype.trim`
(modelled by Unicode whitespace, which agrees on all ASCII input). -/
def jsWhitespace (c : Char) : Bool := c.isWhitespace

/-- Leading and trailing whitespace removal on a character list. -/
def trimChars (l : List Char) : List Char :=
  ((l.dropWhile jsWhitespace).reverse.dropWhile jsWhitespace).reverse

/-- JS `s.trim()`. -/
def trimStr (s : String) : String := String.mk (trimChars s.data)

/-! ### `src/lib/ollama.ts` — vision classification and status check -/

/-- One entry of the `/api/tags` response consumed by the status check:
`name` plus the optional `details.families` metadata (the two levels of
optionality in `model.details?.families` collapse into one `Option`). -/
structure OllamaModel where
  name : String
  families : Option (List String)
deriving Repr, DecidableEq

/-- The `VISION_MODEL_PATTERNS` regex list of `src/lib/ollama.ts`, applied to
the lowercased model name (each regex carries the `i` flag, but every
pattern literal is lowercase, so testing the lowercased name with plain
literals is equivalent):
`^llava`, `^bakllava`, `^gemma3`, `^gemma.*vision`, `^gemma2.*vision`,
`^qwen.*vl`, `^minicpm-v`, `^llama.*vision`, `^moondream`, `vision`,
`multimodal`. -/
def matchesVisionPattern (s : String) : Bool :=
  strStartsWith s "llava" ||
  strStartsWith s "bakllava" ||
  strStartsWith s "gemma3" ||
  (strStartsWith s "gemma" && strHasInfix (String.mk (s.data.drop 5)) "vision") ||
  (strStartsWith s "gemma2" && strHasInfix (String.mk (s.data.drop 6)) "vision") ||
  (strStartsWith s "qwen" && strHasInfix (String.mk (s.data.drop 4)) "vl") ||
  strStartsWith s "minicpm-v" ||
  (strStartsWith s "llama" && strHasInfix (String.mk (s.data.drop 5)) "vision") ||
  strStartsWith s "moondream" ||
  strHasInfix s "vision" ||
  strHasInfix s "multimodal"

/-- `isVisionModel` from `src/lib/ollama.ts`: the lowercased name is tested
against the pattern list; otherwise, when `details.families` is present, the
lowercased families must contain `clip` or `vision`; otherwise `false`. -/
def isVisionModel (m : OllamaModel) : Bool :=
  let modelName := toLowerStr m.name
  if matchesVisionPattern modelName then true
  else
    match m.families with
    | some fams =>
      let lfams := fams.map toLowerStr
      lfams.contains "clip" || lfams.contains "vision"
    | none => false

/-- Outcome of the `fetch(…/api/tags)` call in `checkOllamaStatus`
(`src/lib/ollama.ts`): a 2xx response carrying the parsed model list (an
absent `data.models` field is the `ok []` case, matching `data.models || []`),
a non-2xx response, a rejection with a JS `Error` carrying a message, or a
rejection with a non-`Error` value. -/
inductive TagsOutcome where
  | ok (models : List OllamaModel)
  | notOk
  | errorWith (msg : String)
  | nonError
deriving Repr, DecidableEq

/-- Whether the fetch outcome lands in the `catch` branch of
`checkOllamaStatus`. -/
def TagsOutcome.isFailure : TagsOutcome → Bool
  | .ok _ => false
  | _ => true

/-- The message the `catch` branch of `checkOllamaStatus` derives from the
caught value: a non-2xx response was turned into
`throw new Error('Ollama server is not responding.')`; an `Error` rejection
contributes its own `message`; anything else falls back to
`'Cannot connect to Ollama.'`. -/
def statusFailMessage : TagsOutcome → String
  | .ok _ => ""
  | .notOk => "Ollama server is not responding."
  | .errorWith msg => msg
  | .nonError => "Cannot connect to Ollama."

/-- The `OllamaStatus` result shape of `src/lib/ollama.ts`. -/
structure OllamaStatus where
  isRunning : Bool
  models : List String
  error : Option String
deriving Repr, DecidableEq

/-- `checkOllamaStatus` from `src/lib/ollama.ts` as a pure function of the
fetch outcome (the function holds no state of its own; every call computes
its result from that call's fetch alone).  On success it filters the
installed models through `isVisionModel`, preserving order, and reports the
names; on any failure it returns `isRunning := false`, no models, and the
derived message — it never re-throws. -/
def checkOllamaStatus (o : TagsOutcome) : OllamaStatus :=
  match o with
  | .ok ms =>
    { isRunning := true
      models := (ms.filter isVisionModel).map OllamaModel.name
      error := none }
  | f =>
    { isRunning := false
      models := []
      error := some (statusFailMessage f) }

/-! ### `src/lib/genkit/config.ts` — the display catalog -/

/-- A `{ name, description }` display record. -/
structure DisplayInfo where
  name : String
  description : String
deriving Repr, DecidableEq

/-- The `KNOWN_VISION_MODELS` record of `src/lib/genkit/config.ts`, as an
ordered key/value list (JS record field access becomes first-match lookup;
the keys are distinct, so the order is immaterial). -/
def KNOWN_VISION_MODELS : List (String × DisplayInfo) :=
  [ ("llava", ⟨"LLaVA", "Efficient multimodal vision model"⟩)
  , ("llava-llama3", ⟨"LLaVA Llama 3", "LLaVA with Llama 3 base"⟩)
  , ("llava-phi3", ⟨"LLaVA Phi 3", "LLaVA with Phi 3 base"⟩)
  , ("bakllava", ⟨"BakLLaVA", "Alternative LLaVA implementation"⟩)
  , ("llava-v1.6-mistral", ⟨"LLaVA v1.6 Mistral", "LLaVA with Mistral base"⟩)
  , ("gemma3", ⟨"Gemma 3", "Google's latest multimodal model with vision capabilities"⟩)
  , ("gemma", ⟨"Gemma", "Google's multimodal model"⟩)
  , ("gemma2", ⟨"Gemma 2", "Google's Gemma 2 model"⟩)
  , ("qwen2-vl", ⟨"Qwen2 VL", "Qwen vision-language model"⟩)
  , ("minicpm-v", ⟨"MiniCPM-V", "Efficient vision model"⟩)
  , ("llama3.2-vision", ⟨"Llama 3.2 Vision", "Meta's vision model"⟩)
  , ("moondream", ⟨"Moondream", "Lightweight vision model"⟩)
  ]

/-- JS `KNOWN_VISION_MODELS[k]`. -/
def lookupKnown (k : String) : Option DisplayInfo :=
  (KNOWN_VISION_MODELS.find? (fun p => p.fst == k)).map Prod.snd

/-- JS `part.charAt(0).toUpperCase() + part.slice(1)` (on the empty string
both sides are empty). -/
def capitalizeSegment (l : List Char) : List Char :=
  match l with
  | [] => []
  | c :: cs => c.toUpper :: cs

/-- JS `parts.join(sep)`. -/
def joinWith (sep : String) : List String → String
  | [] => ""
  | [s] => s
  | s :: ss => s ++ sep ++ joinWith sep ss

/-- `getModelDisplayInfo` from `src/lib/genkit/config.ts`: exact catalog
match first; then a prefix match on the text before `:` with the variant
uppercased into the name (the template `` `${name} ${size?.toUpperCase() || ''}` ``
followed by `.trim()`); otherwise the fallback that capitalizes each
`:`-separated segment and joins them with spaces, with the generic
description. -/
def getModelDisplayInfo (modelId : String) : DisplayInfo :=
  match lookupKnown modelId with
  | some info => info
  | none =>
    let parts := splitOnChar ':' modelId
    let baseModel := parts.headD ""
    match lookupKnown baseModel with
    | some info =>
      let variantUpper :=
        match parts[1]? with
        | some sz => if sz == "" then "" else toUpperStr sz
        | none => ""
      { name := trimStr (info.name ++ " " ++ variantUpper)
        description := info.description }
    | none =>
      { name := joinWith " " (parts.map (fun part => String.mk (capitalizeSegment part.data)))
        description := "Vision-capable model" }

/-! ### `src/lib/genkit/flows.ts` — model listing entries -/

/-- One element of the `models` array built by `getAvailableModels`. -/
structure ModelEntry where
  id : String
  name : String
  description : String
  size : String
  available : Bool
  recommended : Bool
deriving Repr, DecidableEq

/-- The per-model construction inside `getAvailableModels`
(`status.models.map(modelId => …)`): display info from the catalog, the size
hint from the variant segment (`modelId.includes(':') ? modelId.split(':')[1] : ''`,
with `'Unknown'` for the falsy empty string), `available: true`, and
`recommended: modelId.toLowerCase().startsWith('gemma3')`. -/
def buildModelEntry (modelId : String) : ModelEntry :=
  let displayInfo := getModelDisplayInfo modelId
  let sizeInfo :=
    if strHasInfix modelId ":" then ((splitOnChar ':' modelId)[1]?).getD "" else ""
  { id := modelId
    name := displayInfo.name
    description := displayInfo.description
    size := if sizeInfo == "" then "Unknown" else sizeInfo
    available := true
    recommended := strStartsWith (toLowerStr modelId) "gemma3" }

/-- Modelled from the claim's words, for comparison with the code: the flag
that would result from comparing the identifier's family segment (the text
before `:`), case-insensitively, with the preferred family `gemma3`. -/
def specFamilyIsPreferred (modelId : String) : Bool :=
  toLowerStr ((splitOnChar ':' modelId).headD "") == "gemma3"

/-! ### `src/lib/genkit/flows.ts` — output formatting -/

/-- The `outputFormat` enumeration of the input schema. -/
inductive OutputFormat where
  | text
  | json
  | markdown
deriving Repr, DecidableEq

/-- The object passed to `JSON.stringify` in the `json` branch. -/
structure JsonPayload where
  text : String
  lines : List String
  wordCount : Nat
deriving Repr, DecidableEq

/-- JS `extractedText.split('\n').filter(line => line.trim())`: the lines of
the text that are non-empty after trimming, kept untrimmed, in order. -/
def jsonLines (t : String) : List String :=
  (splitOnChar '\n' t).filter (fun line => trimStr line != "")

/-- JS `extractedText.split(/\s+/).filter(word => word).length`: the number
of maximal whitespace-delimited tokens (splitting at every whitespace
character and dropping the empty fragments a `\s+` split would also drop). -/
def jsonWordCount (t : String) : Nat :=
  (((splitBy jsWhitespace t.data).map String.mk).filter (fun w => w != "")).length

/-- The payload `{ text, lines, wordCount }` built in the `json` branch. -/
def jsonPayloadOf (t : String) : JsonPayload :=
  { text := t, lines := jsonLines t, wordCount := jsonWordCount t }

/-- One hexadecimal digit (lowercase), as produced by `JSON.stringify` for
control-character escapes. -/
def hexDigit (n : Nat) : Char :=
  if n < 10 then Char.ofNat (48 + n) else Char.ofNat (87 + n)

/-- The escape `JSON.stringify` applies to one character inside a string
literal: `\"`, `\\`, the short escapes for backspace, tab, newline, form
feed and carriage return, `\u00XX` for the remaining control characters,
and the character itself otherwise. -/
def jsonEscapeChar (c : Char) : List Char :=
  if c = '"' then ['\\', '"']
  else if c = '\\' then ['\\', '\\']
  else if c = '\x08' then ['\\', 'b']
  else if c = '\t' then ['\\', 't']
  else if c = '\n' then ['\\', 'n']
  else if c = '\x0c' then ['\\', 'f']
  else if c = '\r' then ['\\', 'r']
  else if c.toNat < 32 then
    ['\\', 'u', '0', '0', hexDigit (c.toNat / 16), hexDigit (c.toNat % 16)]
  else [c]

/-- A JSON string literal for `s`, as `JSON.stringify` renders it. -/
def jsonQuote (s : String) : String :=
  "\"" ++ String.mk ((s.data.map jsonEscapeChar).flatten) ++ "\""

/-- The `lines` array as `JSON.stringify(…, null, 2)` renders it one level
deep inside the payload object: `[]` when empty, otherwise one element per
line at a four-space indent with the closing bracket at two spaces. -/
def serializeLines (ls : List String) : String :=
  match ls with
  | [] => "[]"
  | _ => "[\n    " ++ joinWith ",\n    " (ls.map jsonQuote) ++ "\n  ]"

/-- `JSON.stringify({ text, lines, wordCount }, null, 2)` for the fixed
payload shape: keys in insertion order, two-space indentation. -/
def serializeJsonPayload (p : JsonPayload) : String :=
  "\x7b\n  \"text\": " ++ jsonQuote p.text ++
  ",\n  \"lines\": " ++ serializeLines p.lines ++
  ",\n  \"wordCount\": " ++ toString p.wordCount ++ "\n\x7d"

/-- The output-format transform of the Finalizing step: `text` passes the
extracted text through, `json` serializes the payload (the `try/catch`
around `JSON.stringify` cannot fire for this cycle-free payload, so the
fallback branch is dead code), `markdown` prepends the level-1 heading and a
blank line. -/
def formatOutput (fmt : OutputFormat) (extractedText : String) : String :=
  match fmt with
  | .text => extractedText
  | .json => serializeJsonPayload (jsonPayloadOf extractedText)
  | .markdown => "# Extracted Text\n\n" ++ extractedText

/-! ### `src/lib/genkit/flows.ts` — the extraction pipeline -/

/-- The fields of the extraction request the pipeline's control flow reads
(the image payload itself only reaches the abstracted network call; its
decoded size lives in `ExtractEnv`). -/
structure ExtractionInput where
  model : String
  prompt : String
  outputFormat : OutputFormat
deriving Repr, DecidableEq

/-- Outcome of the `ai.generate` network call: the response text, a
rejection with a JS `Error` carrying a message (connection refused, model
not found, timeout, …), or a rejection with a non-`Error` value. -/
inductive GenOutcome where
  | ok (text : String)
  | errorWith (msg : String)
  | nonError
deriving Repr, DecidableEq

/-- Whether the generate outcome lands the pipeline in its `catch` branch. -/
def GenOutcome.fails : GenOutcome → Bool
  | .ok _ => false
  | _ => true

/-- The platform effects one `extractTextFromImage` call observes:
`imageSize` is `Buffer.from(input.imageBase64, 'base64').length` (the
decoded byte count), `gen` the outcome `ai.generate` would deliver if
called, and `elapsed` the value `Date.now() - startTime` takes at the point
the result object is built. -/
structure ExtractEnv where
  imageSize : Nat
  gen : GenOutcome
  elapsed : Nat
deriving Repr, DecidableEq

/-- The `metadata` object of the output schema (`confidence` is optional in
the schema but set on every code path, so it is modelled as a plain
string). -/
structure ExtractionMetadata where
  model : String
  processingTime : Nat
  imageSize : Nat
  confidence : String
deriving Repr, DecidableEq

/-- The `ExtractionResult` output shape. -/
structure ExtractionResult where
  extractedText : String
  metadata : ExtractionMetadata
deriving Repr, DecidableEq

/-- What one pipeline call produces: the structured result (the pipeline is
a total function into this type — the `catch` converts every failure, so no
exception crosses the flow boundary) plus whether the network call was
reached. -/
structure ExtractOutcome where
  result : ExtractionResult
  networkCalled : Bool
deriving Repr, DecidableEq

/-- The 10 MiB validation bound (`10 * 1024 * 1024` bytes). -/
def MAX_IMAGE_SIZE : Nat := 10 * 1024 * 1024

/-- The message the `catch` branch derives from a failed generate call: an
`Error` rejection contributes its own `message`, anything else keeps the
default `'Failed to extract text from image'`. -/
def extractErrorMessage : GenOutcome → String
  | .ok _ => ""
  | .errorWith msg => msg
  | .nonError => "Failed to extract text from image"

/-- The failure result built in the `catch` branch: empty text, the
requested model, the elapsed time, `imageSize: 0`, and
`confidence: 'Error: ' + message`. -/
def failureResult (model : String) (elapsed : Nat) (msg : String) : ExtractionResult :=
  { extractedText := ""
    metadata :=
      { model := model
        processingTime := elapsed
        imageSize := 0
        confidence := "Error: " ++ msg } }

/-- `extractTextFromImage` from `src/lib/genkit/flows.ts` as a pure function
of the request and the platform environment.  Oversized payloads throw
inside `try` before `ai.generate` is reached, so they land in `catch` with
the size message and no network call; otherwise the generate outcome either
yields the formatted success result or lands in `catch` with the derived
message. -/
def extractTextFromImage (input : ExtractionInput) (env : ExtractEnv) : ExtractOutcome :=
  if env.imageSize > MAX_IMAGE_SIZE then
    { result := failureResult input.model env.elapsed "Image size exceeds 10MB limit"
      networkCalled := false }
  else
    match env.gen with
    | .ok text =>
      { result :=
          { extractedText := formatOutput input.outputFormat text
            metadata :=
              { model := input.model
                processingTime := env.elapsed
                imageSize := env.imageSize
                confidence := "High" } }
        networkCalled := true }
    | g =>
      { result := failureResult input.model env.elapsed (extractErrorMessage g)
        networkCalled := true }

/-! ### Helper lemmas -/

/-- A split never produces an empty group list (JS `split` always yields at
least one fragment). -/
theorem splitBy_ne_nil (p : Char → Bool) (l : List Char) : splitBy p l ≠ [] := by
  induction l with
  | nil => simp [splitBy]
  | cons c cs ih =>
    simp only [splitBy]
    split
    · simp
    · cases h : splitBy p cs with
      | nil => simp
      | cons g gs => simp

/-- When a split yields a single group, that group is the whole input (no
separator occurred). -/
theorem splitBy_singleton (p : Char → Bool) (l : List Char) (g : List Char)
    (h : splitBy p l = [g]) : g = l := by
  induction l generalizing g with
  | nil => simp [splitBy] at h; exact h
  | cons c cs ih =>
    simp only [splitBy] at h
    split at h
    · obtain ⟨-, htl⟩ := List.cons.injEq .. ▸ h
      exact absurd htl (splitBy_ne_nil p cs)
    · cases hs : splitBy p cs with
      | nil => exact absurd hs (splitBy_ne_nil p cs)
      | cons g' gs =>
        rw [hs] at h
        obtain ⟨hg, htl⟩ := List.cons.injEq .. ▸ h
        subst htl
        have := ih g' hs
        subst this
        exact hg ▸ rfl

/-- Trimming keeps at least one character whenever some character of the
input is not whitespace. -/
theorem trimChars_ne_nil (l : List Char) (c : Char) (hc : c ∈ l)
    (hw : jsWhitespace c = false) : trimChars l ≠ [] := by
  intro hnil
  unfold trimChars at hnil
  rw [List.reverse_eq_nil_iff, List.dropWhile_eq_nil_iff] at hnil
  have hcd : c ∈ l.dropWhile jsWhitespace := by
    rcases List.mem_append.mp ((List.takeWhile_append_dropWhile jsWhitespace l) ▸ hc) with h | h
    · exact absurd (List.mem_takeWhile_imp h) (by simp [hw])
    · exact h
  have := hnil c (List.mem_reverse.mpr hcd)
  simp [hw] at this

/-- Every display name in the catalog contains a non-whitespace character. -/
theorem lookupKnown_name_solid (k : String) (info : DisplayInfo)
    (h : lookupKnown k = some info) :
    ∃ c ∈ info.name.data, jsWhitespace c = false := by
  unfold lookupKnown at h
  rw [Option.map_eq_some'] at h
  obtain ⟨p, hp, rfl⟩ := h
  have hmem := List.mem_of_find?_eq_some hp
  fin_cases hmem <;> decide

/-- Every non-empty identifier gets a non-empty display name, in each of the
three branches of `getModelDisplayInfo`. -/
theorem getModelDisplayInfo_name_ne_empty (modelId : String) (h : modelId ≠ "") :
    (getModelDisplayInfo modelId).name ≠ "" := by
  unfold getModelDisplayInfo
  cases hx : lookupKnown modelId with
  | some info =>
    obtain ⟨c, hc, hw⟩ := lookupKnown_name_solid _ _ hx
    simp only [hx]
    intro hne
    rw [String.ext_iff] at hne
    simp [hne] at hc
  | none =>
    simp only [hx]
    cases hb : lookupKnown ((splitOnChar ':' modelId).headD "") with
    | some info =>
      obtain ⟨c, hc, hw⟩ := lookupKnown_name_solid _ _ hb
      simp only [hb]
      intro hne
      rw [String.ext_iff] at hne
      refine trimChars_ne_nil _ c ?_ hw hne
      simp [String.data_append]
      exact Or.inl hc
    | none =>
      simp only [hb]
      intro hne
      rw [String.ext_iff] at hne
      rw [splitOnChar] at hne
      cases hgs : splitBy (fun c => c == ':') modelId.data with
      | nil => exact splitBy_ne_nil _ _ hgs
      | cons g1 rest =>
        rw [hgs] at hne
        cases rest with
        | nil =>
          have hg1 : g1 = modelId.data := splitBy_singleton _ _ _ hgs
          cases hd : modelId.data with
          | nil => exact h (String.ext hd)
          | cons c cs =>
            rw [hg1, hd] at hne
            simp [joinWith, capitalizeSegment] at hne
        | cons g2 rest2 =>
          simp [joinWith, String.data_append] at hne

/-- An error confidence string is never the success label `High` (it is
seven characters of prefix plus the message, so its length differs). -/
theorem error_confidence_ne_high (msg : String) : "Error: " ++ msg ≠ "High" := by
  intro heq
  have hlen := congrArg String.length heq
  rw [String.length_append] at hlen
  have h7 : ("Error: " : String).length = 7 := rfl
  have h4 : ("High" : String).length = 4 := rfl
  rw [h7, h4] at hlen
  omega

/-! ### The claims -/

/-- Claim C1: whenever any error is caught during extraction (size
violation before the network call, or any failure of the generate call —
connection refused, model not found, timeout, non-`Error` throw), the
pipeline returns a well-formed `ExtractionResult` whose `extractedText` is
empty and whose `confidence` field carries a descriptive `Error: …` string
(never the success label), with the elapsed time and the requested model in
the metadata.  The pipeline is a total function into `ExtractOutcome`, so no
failure propagates as a thrown exception past its boundary. -/
theorem extract_failure_returns_wellformed_result
    (input : ExtractionInput) (env : ExtractEnv)
    (h : env.imageSize > MAX_IMAGE_SIZE ∨ env.gen.fails = true) :
    (extractTextFromImage input env).result.extractedText = "" ∧
    (∃ msg, (extractTextFromImage input env).result.metadata.confidence = "Error: " ++ msg) ∧
    (extractTextFromImage input env).result.metadata.confidence ≠ "High" ∧
    (extractTextFromImage input env).result.metadata.processingTime = env.elapsed ∧
    (extractTextFromImage input env).result.metadata.model = input.model := by
  unfold extractTextFromImage
  by_cases hs : env.imageSize > MAX_IMAGE_SIZE
  · simp only [if_pos hs]
    exact ⟨rfl, ⟨_, rfl⟩, error_confidence_ne_high _, rfl, rfl⟩
  · simp only [if_neg hs]
    cases hg : env.gen with
    | ok t =>
      exfalso
      rcases h with h | h
      · exact hs h
      · rw [hg] at h; simp [GenOutcome.fails] at h
    | errorWith m => exact ⟨rfl, ⟨_, rfl⟩, error_confidence_ne_high _, rfl, rfl⟩
    | nonError => exact ⟨rfl, ⟨_, rfl⟩, error_confidence_ne_high _, rfl, rfl⟩

/-- Claim C1, witness: a connection-refused failure on a small image yields
the well-formed failure result. -/
theorem extract_failure_returns_wellformed_result_witness :
    (extractTextFromImage ⟨"gemma3:4b", "Extract all text from this image.", .text⟩
        ⟨100, .errorWith "connect ECONNREFUSED 127.0.0.1:11434", 42⟩).result.extractedText = "" ∧
    (∃ msg, (extractTextFromImage ⟨"gemma3:4b", "Extract all text from this image.", .text⟩
        ⟨100, .errorWith "connect ECONNREFUSED 127.0.0.1:11434", 42⟩).result.metadata.confidence =
          "Error: " ++ msg) ∧
    (extractTextFromImage ⟨"gemma3:4b", "Extract all text from this image.", .text⟩
        ⟨100, .errorWith "connect ECONNREFUSED 127.0.0.1:11434", 42⟩).result.metadata.confidence ≠ "High" ∧
    (extractTextFromImage ⟨"gemma3:4b", "Extract all text from this image.", .text⟩
        ⟨100, .errorWith "connect ECONNREFUSED 127.0.0.1:11434", 42⟩).result.metadata.processingTime = 42 ∧
    (extractTextFromImage ⟨"gemma3:4b", "Extract all text from this image.", .text⟩
        ⟨100, .errorWith "connect ECONNREFUSED 127.0.0.1:11434", 42⟩).result.metadata.model = "gemma3:4b" :=
  extract_failure_returns_wellformed_result _ _ (Or.inr rfl)

/-- Claim C2: a payload whose decoded size is exactly 10 MiB + 1 byte fails
validation with the size-limit error and no network call is attempted; at
exactly 10 MiB validation passes and the pipeline proceeds to dispatch the
network call. -/
theorem extract_size_boundary (input : ExtractionInput) (env : ExtractEnv) :
    (env.imageSize = MAX_IMAGE_SIZE + 1 →
      (extractTextFromImage input env).networkCalled = false ∧
      (extractTextFromImage input env).result.extractedText = "" ∧
      (extractTextFromImage input env).result.metadata.confidence =
        "Error: Image size exceeds 10MB limit") ∧
    (env.imageSize = MAX_IMAGE_SIZE →
      (extractTextFromImage input env).networkCalled = true) := by
  constructor
  · intro hsz
    have hs : env.imageSize > MAX_IMAGE_SIZE := by omega
    unfold extractTextFromImage
    rw [if_pos hs]
    refine ⟨rfl, rfl, ?_⟩
    show ("Error: " ++ "Image size exceeds 10MB limit" : String) = "Error: Image size exceeds 10MB limit"
    decide
  · intro hsz
    have hs : ¬ env.imageSize > MAX_IMAGE_SIZE := by omega
    unfold extractTextFromImage
    simp only [if_neg hs]
    cases env.gen <;> rfl

/-- Claim C2, witness: at 10485761 bytes no network call happens; at
10485760 bytes the call is dispatched. -/
theorem extract_size_boundary_witness :
    (extractTextFromImage ⟨"gemma3:4b", "Extract all text from this image.", .text⟩
        ⟨10485761, .ok "INVOICE #123", 3⟩).networkCalled = false ∧
    (extractTextFromImage ⟨"gemma3:4b", "Extract all text from this image.", .text⟩
        ⟨10485760, .ok "INVOICE #123", 3⟩).networkCalled = true :=
  ⟨((extract_size_boundary ⟨"gemma3:4b", "Extract all text from this image.", .text⟩
      ⟨10485761, .ok "INVOICE #123", 3⟩).1 (by decide)).1,
   (extract_size_boundary ⟨"gemma3:4b", "Extract all text from this image.", .text⟩
      ⟨10485760, .ok "INVOICE #123", 3⟩).2 (by decide)⟩

/-- Claim C3: every identifier matching a known vision-model pattern (in
particular `llava:7b`, `gemma3:4b`, `gemma3:27b`) classifies as
vision-capable, and an identifier matching no pattern (in particular
`mistral:7b`), with no server-side family metadata, classifies as not
vision-capable — classification of a bare identifier is exactly the
pattern-list test on the lowercased name (the family-metadata case is
Claim C10). -/
theorem classifyVision_name_patterns :
    (∀ name : String, isVisionModel ⟨name, none⟩ = matchesVisionPattern (toLowerStr name)) ∧
    isVisionModel ⟨"llava:7b", none⟩ = true ∧
    isVisionModel ⟨"gemma3:4b", none⟩ = true ∧
    isVisionModel ⟨"gemma3:27b", none⟩ = true ∧
    isVisionModel ⟨"mistral:7b", none⟩ = false := by
  refine ⟨fun name => ?_, by decide, by decide, by decide, by decide⟩
  by_cases hm : matchesVisionPattern (toLowerStr name) <;> simp [isVisionModel, hm]

/-- Claim C4: whenever the model-listing fetch fails for any reason
(non-2xx, rejected with an `Error`, rejected with something else), the
status check returns exactly `isRunning := false`, an empty model list, and
the non-empty derived message — it never throws (it is a total function of
the fetch outcome), and repeated calls under the same failure each return
that same shape, with no state carried between calls. -/
theorem checkOllamaStatus_failure_shape (o : TagsOutcome)
    (hf : o.isFailure = true) (hm : statusFailMessage o ≠ "") :
    checkOllamaStatus o =
      { isRunning := false, models := [], error := some (statusFailMessage o) } ∧
    (∃ msg, checkOllamaStatus o = { isRunning := false, models := [], error := some msg } ∧ msg ≠ "") ∧
    (∀ n : Nat, (List.replicate n o).map checkOllamaStatus =
      List.replicate n (checkOllamaStatus o)) := by
  cases o with
  | ok ms => simp [TagsOutcome.isFailure] at hf
  | notOk => exact ⟨rfl, ⟨_, rfl, hm⟩, fun n => by simp [List.map_replicate]⟩
  | errorWith m => exact ⟨rfl, ⟨_, rfl, hm⟩, fun n => by simp [List.map_replicate]⟩
  | nonError => exact ⟨rfl, ⟨_, rfl, hm⟩, fun n => by simp [List.map_replicate]⟩

/-- Claim C4, witness: a non-2xx response yields the failing status shape. -/
theorem checkOllamaStatus_failure_shape_witness :
    checkOllamaStatus TagsOutcome.notOk =
      { isRunning := false, models := [], error := some (statusFailMessage TagsOutcome.notOk) } :=
  (checkOllamaStatus_failure_shape TagsOutcome.notOk rfl (by decide)).1

/-- Claim C5: the Finalizing transform returns the text unchanged for
`text`; for `json` it serializes the payload whose `text` field is the raw
text, whose `lines` are the lines non-empty after trimming (for
`"Hello\nWorld"` exactly `["Hello", "World"]`), and whose `wordCount` is
the whitespace-delimited token count (2 for `"Hello\nWorld"`); for
`markdown` it prepends `"# Extracted Text\n\n"` to the unchanged text. -/
theorem formatOutput_transforms :
    (∀ t, formatOutput .text t = t) ∧
    (∀ t, formatOutput .markdown t = "# Extracted Text\n\n" ++ t) ∧
    (∀ t, formatOutput .json t = serializeJsonPayload (jsonPayloadOf t)) ∧
    (∀ t, (jsonPayloadOf t).text = t) ∧
    jsonPayloadOf "Hello\nWorld" =
      { text := "Hello\nWorld", lines := ["Hello", "World"], wordCount := 2 } ∧
    formatOutput .json "Hello\nWorld" =
      "\x7b\n  \"text\": \"Hello\\nWorld\",\n  \"lines\": [\n    \"Hello\",\n    \"World\"\n  ],\n  \"wordCount\": 2\n\x7d" :=
  ⟨fun t => rfl, fun t => rfl, fun t => rfl, fun t => rfl, by decide, by decide⟩

/-- Claim C6, counterexample: `gemma3n:e2b` is a vision-classified, hence
listable, identifier whose listing entry has `recommended = true` although
its family segment `gemma3n` does not equal the preferred family `gemma3` —
so the recommended flag is not the claimed family-equality test. -/
theorem recommended_flag_counterexample :
    isVisionModel ⟨"gemma3n:e2b", none⟩ = true ∧
    (buildModelEntry "gemma3n:e2b").recommended = true ∧
    specFamilyIsPreferred "gemma3n:e2b" = false := by decide

/-- Claim C6 as amended: in every listing entry the recommended flag is
true iff the whole identifier, lowercased, starts with `gemma3` — a
case-insensitive prefix match on the identifier, not an equality test on
the family segment; identifiers whose family strictly extends `gemma3`
(such as `gemma3n:e2b`) are therefore also marked recommended. -/
theorem recommended_flag_prefix_match :
    (∀ modelId : String,
      (buildModelEntry modelId).recommended = strStartsWith (toLowerStr modelId) "gemma3") ∧
    (buildModelEntry "gemma3:4b").recommended = true ∧
    (buildModelEntry "GEMMA3:12b").recommended = true ∧
    (buildModelEntry "llava:7b").recommended = false ∧
    (buildModelEntry "gemma3n:e2b").recommended = true :=
  ⟨fun modelId => rfl, by decide, by decide, by decide, by decide⟩

/-- Claim C8: `getModelDisplayInfo` is total and never returns an empty
name for a (non-empty) identifier: exact catalog matches take precedence,
prefix matches uppercase the variant into the name (`llava:7b` becomes
`LLaVA 7B`), and an unknown identifier such as `foo:9b` falls back to the
capitalized-segments name `Foo 9b` with the generic description. -/
theorem displayInfo_total_with_fallback :
    (∀ modelId : String, modelId ≠ "" → (getModelDisplayInfo modelId).name ≠ "") ∧
    (∀ modelId info, lookupKnown modelId = some info → getModelDisplayInfo modelId = info) ∧
    getModelDisplayInfo "llava:7b" = ⟨"LLaVA 7B", "Efficient multimodal vision model"⟩ ∧
    getModelDisplayInfo "foo:9b" = ⟨"Foo 9b", "Vision-capable model"⟩ ∧
    (getModelDisplayInfo "foo:9b").name ≠ "" := by
  refine ⟨getModelDisplayInfo_name_ne_empty, ?_, by decide, by decide, by decide⟩
  intro modelId info h
  unfold getModelDisplayInfo
  simp [h]

/-- Claim C8, witness: the unknown identifier `foo:9b` gets a non-empty
name, and the exact catalog key `llava` returns its catalog entry. -/
theorem displayInfo_total_with_fallback_witness :
    (getModelDisplayInfo "foo:9b").name ≠ "" ∧
    getModelDisplayInfo "llava" = ⟨"LLaVA", "Efficient multimodal vision model"⟩ :=
  ⟨displayInfo_total_with_fallback.1 "foo:9b" (by decide),
   displayInfo_total_with_fallback.2.1 "llava" ⟨"LLaVA", "Efficient multimodal vision model"⟩ (by decide)⟩

/-- Claim C9: every extraction that ends in the Failed branch after the
image was decoded and measured within the 10 MiB limit still reports
`imageSize = 0` in its metadata — the measured size is not preserved in the
failure result (and `networkCalled = true` shows the failure happened after
measurement). -/
theorem extract_failure_reports_zero_imageSize
    (input : ExtractionInput) (env : ExtractEnv)
    (h1 : env.imageSize ≤ MAX_IMAGE_SIZE) (h2 : env.gen.fails = true) :
    (extractTextFromImage input env).result.metadata.imageSize = 0 ∧
    (extractTextFromImage input env).networkCalled = true := by
  have hs : ¬ env.imageSize > MAX_IMAGE_SIZE := by omega
  unfold extractTextFromImage
  simp only [if_neg hs]
  cases hg : env.gen with
  | ok t => rw [hg] at h2; simp [GenOutcome.fails] at h2
  | errorWith m => exact ⟨rfl, rfl⟩
  | nonError => exact ⟨rfl, rfl⟩

/-- Claim C9, witness: an image measured at 123456 bytes (non-zero, within
the limit) still yields `imageSize = 0` when generation fails. -/
theorem extract_failure_reports_zero_imageSize_witness :
    (123456 : Nat) ≠ 0 ∧
    (extractTextFromImage ⟨"llava:7b", "Extract all text from this image.", .markdown⟩
        ⟨123456, .errorWith "socket hang up", 7⟩).result.metadata.imageSize = 0 :=
  ⟨by decide,
   (extract_failure_reports_zero_imageSize ⟨"llava:7b", "Extract all text from this image.", .markdown⟩
      ⟨123456, .errorWith "socket hang up", 7⟩ (by decide) rfl).1⟩

/-- Claim C10: a model whose name matches no vision pattern is classified
by its server-reported families — lowercased, they must contain `clip` or
`vision` for a `true` classification; with such families present but
containing neither, the classification is `false` (so the metadata, not the
name alone, decides). -/
theorem classifyVision_uses_families_metadata
    (name : String) (fams : List String)
    (h : matchesVisionPattern (toLowerStr name) = false) :
    isVisionModel ⟨name, some fams⟩ =
      ((fams.map toLowerStr).contains "clip" || (fams.map toLowerStr).contains "vision") ∧
    isVisionModel ⟨"mistral:7b", some ["CLIP"]⟩ = true ∧
    isVisionModel ⟨"mistral:7b", some ["llama"]⟩ = false := by
  refine ⟨?_, by decide, by decide⟩
  simp [isVisionModel, h]

/-- Claim C10, witness: `mistral:7b` matches no pattern, and with families
`["CLIP"]` its classification equals the lowercased-families membership
test (which is `true` here). -/
theorem classifyVision_uses_families_metadata_witness :
    isVisionModel ⟨"mistral:7b", some ["CLIP"]⟩ =
      (((["CLIP"] : List String).map toLowerStr).contains "clip" ||
       ((["CLIP"] : List String).map toLowerStr).contains "vision") :=
  (classifyVision_uses_families_metadata "mistral:7b" ["CLIP"] (by decide)).1
